import Mathlib

/-!
Shallow embedding of the crawler engine of the TUM_Research repository and
verification of the specification's claims about it.

The embedding covers three source files:
* `src/00save2.js` — the bulk paginated fetcher (`fetchAllFor`, `markUpdated`,
  `getItemId`, `fetchWithRetry`, `safeWriteMetaFile`, `inferFromFromFile`,
  the token-bucket `rateLimit`);
* `src/unnamed/part_000` (`fetch_levels.js`) — the per-level fetcher
  (`fetchPageWithRetry`, `loadIndex`, `appendUniqueCoursesToNdjson`,
  `saveProgress`, `processLevel`);
* `src/02fetchCountries.js` — the detail fetcher (`fetchWithRetry`,
  `saveCountryMeta`, the existing-file skip).

JavaScript effects are made explicit: a function that can throw is embedded
as `Except` (an `Except.error` value models a JS exception propagating past
the function's boundary), file-system persistence is modelled as explicit
traces of primitive operations with crash points, and the timer-driven token
bucket is modelled as a predicate on timed event traces.
-/

namespace Save2

/-- `PAGE_SIZE` constant of `src/00save2.js`. -/
def PAGE_SIZE : Nat := 10

/-- `MAX_RETRIES` constant of `src/00save2.js`. -/
def MAX_RETRIES : Nat := 3

/-- `MAX_PAGES_PER_LEVEL` constant of `src/00save2.js`. -/
def MAX_PAGES_PER_LEVEL : Nat := 10000

/-- A fetched search-result item, restricted to the fields the crawler
consults (`getItemId` reads exactly these five; the rest of the payload is
opaque to the engine). `none` models an absent / null / undefined field. -/
structure Item where
  id : Option String
  uuid : Option String
  identifier : Option String
  escoIdentifier : Option String
  uri : Option String
deriving DecidableEq, Repr

/-- `getItemId` of `src/00save2.js` line 214:
`it?.id ?? it?.uuid ?? it?.identifier ?? it?.escoIdentifier ?? it?.uri ?? null`.
The JS `??` operator falls through exactly on null/undefined, i.e. on `none`. -/
def getItemId (it : Item) : Option String :=
  match it.id with
  | some v => some v
  | none =>
    match it.uuid with
    | some v => some v
    | none =>
      match it.identifier with
      | some v => some v
      | none =>
        match it.escoIdentifier with
        | some v => some v
        | none => it.uri

/-- The identifier preference order as the specification words it
(`id/uuid/identifier/uri, in that preference order`), for comparison with the
source's `getItemId`. This definition follows the spec, not the code. -/
def getItemIdSpecOrder (it : Item) : Option String :=
  match it.id with
  | some v => some v
  | none =>
    match it.uuid with
    | some v => some v
    | none =>
      match it.identifier with
      | some v => some v
      | none => it.uri

/-- JS truthiness test `!id` applied to an extracted identifier: true for
null/undefined (`none`) and for the empty string (the only falsy string). -/
def idFalsy : Option String → Bool
  | none => true
  | some s => s = ""

/-- The de-dup filter of `fetchAllFor` (`src/00save2.js` lines 299–306):
```
const newItems = items.filter((_, i) => {
  const id = pageIds[i];
  if (!id) return true; // if no id field, allow
  if (seen.has(id)) return false;
  seen.add(id);
  return true;
});
```
Returns the accepted items together with the updated `seen` set (modelled as
a list; membership plays the role of `Set.has`, consing of `Set.add`). -/
def filterNew : List Item → List String → List Item × List String
  | [], seen => ([], seen)
  | it :: rest, seen =>
    match getItemId it with
    | none =>
      let r := filterNew rest seen
      (it :: r.1, r.2)
    | some i =>
      if i = "" then
        let r := filterNew rest seen
        (it :: r.1, r.2)
      else if seen.contains i then
        filterNew rest seen
      else
        let r := filterNew rest (i :: seen)
        (it :: r.1, r.2)

/-- One scope's checkpoint entry (`getMeta` scaffold of `src/00save2.js`
lines 110–117). The wall-clock `lastUpdated` timestamp and the constant
`file` path string are not part of the model; `fromOfs` embeds the JS field
`from` (a Lean keyword). -/
structure MetaEntry where
  fromOfs : Nat
  completed : Bool
  totalPages : Nat
  totalItems : Nat
deriving DecidableEq, Repr

/-- The fresh entry created by `getMeta` for a scope not yet in the meta
document: `{ from: 0, completed: false, totalPages: 0, totalItems: 0 }`. -/
def freshEntry : MetaEntry :=
  { fromOfs := 0, completed := false, totalPages := 0, totalItems := 0 }

/-- `markUpdated` of `src/00save2.js` lines 122–127 (sans timestamp):
sets `entry.from`, bumps `totalPages` by one and `totalItems` by the page's
accepted count. -/
def markUpdated (entry : MetaEntry) (fromOfs pageItems : Nat) : MetaEntry :=
  { entry with
    fromOfs := fromOfs
    totalPages := entry.totalPages + 1
    totalItems := entry.totalItems + pageItems }

/-- `markComplete` of `src/00save2.js` lines 129–132 (sans timestamp). -/
def markComplete (entry : MetaEntry) : MetaEntry :=
  { entry with completed := true }

/-- `inferFromFromFile` of `src/00save2.js` lines 220–229, as a function of
the number of nonempty lines in the NDJSON file:
`Math.floor(lines / PAGE_SIZE) * PAGE_SIZE`. -/
def inferFromFromFile (lines : Nat) : Nat :=
  lines / PAGE_SIZE * PAGE_SIZE

/-- State threaded through the `while (true)` loop of `fetchAllFor`:
the in-memory meta entry, the local `from` cursor, the `seen` set, and the
cumulative NDJSON output appended so far (the file's records). -/
structure LoopState where
  entry : MetaEntry
  fromOfs : Nat
  seen : List String
  out : List Item
deriving Repr

/-- The body of `fetchAllFor`'s `while (true)` loop (`src/00save2.js`
lines 267–318), driven by the successive pages the source returns (each page
is the already-extracted `items` array of one response). The loop:
* force-completes when `entry.totalPages >= MAX_PAGES_PER_LEVEL`;
* on an empty page marks the scope complete and stops;
* otherwise filters the page against `seen`, appends the accepted items to
  the output file, advances `from` by `PAGE_SIZE`, and calls `markUpdated`
  with the accepted count.
An exhausted page list models the process stopping (crash / kill) with no
further responses. Every `saveMeta` call in the loop persists the entry
state at that point; the returned `LoopState.entry` is the last persisted
entry. -/
def fetchLoop : LoopState → List (List Item) → LoopState
  | st, [] => st
  | st, items :: rest =>
    if st.entry.totalPages ≥ MAX_PAGES_PER_LEVEL then
      { st with entry := markComplete st.entry }
    else if items.length = 0 then
      { st with entry := markComplete st.entry }
    else
      let r := filterNew items st.seen
      let out2 := st.out ++ r.1
      let from2 := st.fromOfs + PAGE_SIZE
      let entry2 := markUpdated st.entry from2 r.1.length
      fetchLoop { entry := entry2, fromOfs := from2, seen := r.2, out := out2 } rest

/-- `fetchAllFor` of `src/00save2.js` lines 231–321, for one scope.
Inputs: the scope's current meta `entry`, whether its output file exists and
how many nonempty lines it holds, and the pages the source will return.
Mirrors the source's resume logic:
* a completed entry short-circuits;
* if the file is missing but `from > 0`, the level restarts from 0
  (`entry.from = 0` is persisted);
* otherwise, if `from > 0` and `inferFromFromFile` disagrees with `from`,
  the offset is realigned to the inferred value and persisted;
* then `const seen = new Set()` — the de-dup set starts EMPTY — and the
  page loop runs. -/
def fetchAllFor (entry : MetaEntry) (fileExists : Bool) (fileLines : Nat)
    (pages : List (List Item)) : LoopState :=
  if entry.completed then
    { entry := entry, fromOfs := entry.fromOfs, seen := [], out := [] }
  else
    let f0 := entry.fromOfs
    let st0 : LoopState :=
      if !fileExists ∧ f0 > 0 then
        { entry := { entry with fromOfs := 0 }, fromOfs := 0, seen := [], out := [] }
      else if f0 > 0 ∧ inferFromFromFile fileLines ≠ f0 then
        { entry := { entry with fromOfs := inferFromFromFile fileLines },
          fromOfs := inferFromFromFile fileLines, seen := [], out := [] }
      else
        { entry := entry, fromOfs := f0, seen := [], out := [] }
    fetchLoop st0 pages

/-! ### Retry executor of `src/00save2.js` (`fetchWithRetry`, lines 161–194)

The same structure appears in `src/02fetchCountries.js` lines 45–84 (only the
constants differ); this embedding is the representative for both. -/

/-- Outcome of one underlying `fetch` attempt: an HTTP response (status and
body text) or a network-level failure (timeout/abort/reset), which in JS
surfaces as a thrown error caught by the retry loop. -/
inductive Outcome where
  | response (status : Nat) (body : String)
  | networkError (msg : String)
deriving DecidableEq, Repr

/-- The error message built for a retryable status (`src/00save2.js`
line 177): body NOT captured. -/
def httpErrMsg (status : Nat) : String :=
  "HTTP " ++ toString status

/-- The error message built for a non-retryable 4xx (`src/00save2.js`
lines 179–180): response body captured into the message. -/
def httpErrMsgWithBody (status : Nat) (body : String) : String :=
  "HTTP " ++ toString status ++ ": " ++ body

/-- Classification of one attempt by the `try` body of `fetchWithRetry`
(`src/00save2.js` lines 172–183): a 2xx response is returned (`res.ok`);
a 5xx or 429 throws `HTTP <status>`; any other non-ok status reads the body
and throws with the body captured; a network error throws its own message.
`Except.error` models the thrown JS error. -/
def classifyAttempt : Outcome → Except String (Nat × String)
  | .response status body =>
    if 200 ≤ status ∧ status < 300 then .ok (status, body)
    else if 500 ≤ status ∨ status = 429 then .error (httpErrMsg status)
    else .error (httpErrMsgWithBody status body)
  | .networkError msg => .error msg

/-- Result of a whole `fetchWithRetry` run: the final value (`Except.error`
models the function THROWING the last error past its boundary, `Except.ok`
a returned response), the number of attempts performed, and the list of
backoff sleeps (in ms) incurred between attempts. -/
structure RetryRun where
  result : Except String (Nat × String)
  attemptsUsed : Nat
  backoffs : List Nat
deriving Repr

/-- The `for (attempt = 0; attempt <= retries; attempt++)` loop of
`fetchWithRetry` (`src/00save2.js` lines 163–193): each attempt consumes the
next outcome; a caught error with `attempt < retries` sleeps
`delayMs * 2^attempt` and continues; otherwise the last error is thrown.
The outcome list supplies one outcome per attempt (it is never shorter in
any run we consider; a short list yields a network-error placeholder). -/
def fetchWithRetryAux (retries delayMs : Nat) :
    List Outcome → Nat → List Nat → RetryRun
  | [], attempt, acc => ⟨.error "no outcome", attempt, acc⟩
  | o :: rest, attempt, acc =>
    match classifyAttempt o with
    | .ok r => ⟨.ok r, attempt + 1, acc⟩
    | .error e =>
      if attempt < retries then
        fetchWithRetryAux retries delayMs rest (attempt + 1)
          (acc ++ [delayMs * 2 ^ attempt])
      else ⟨.error e, attempt + 1, acc⟩

/-- `fetchWithRetry(url, init)` of `src/00save2.js` with its default
arguments (`retries = MAX_RETRIES = 3`, `delayMs = 800`), as a function of
the attempt outcomes the network produces. -/
def fetchWithRetry (outcomes : List Outcome) : RetryRun :=
  fetchWithRetryAux MAX_RETRIES 800 outcomes 0 []

end Save2

namespace FetchLevels

/-! ### `src/unnamed/part_000` (`fetch_levels.js`): per-level fetcher. -/

/-- `SIZE` constant of `fetch_levels.js`. -/
def SIZE : Nat := 150

/-- `MAX_RETRIES` constant of `fetch_levels.js`. -/
def MAX_RETRIES : Nat := 6

/-- `INITIAL_BACKOFF_MS` constant of `fetch_levels.js`. -/
def INITIAL_BACKOFF_MS : Nat := 800

/-- Result type of `fetchPageWithRetry` (`fetch_levels.js` lines 65–87):
always a RETURNED value — `{ ok: true, data, status }` on a 200 response,
`{ ok: false, error }` after exhausting retries. The function never throws. -/
inductive PageResult where
  | ok (body : String)
  | err (msg : String)
deriving DecidableEq, Repr

/-- The `while (attempt < MAX_RETRIES)` loop of `fetchPageWithRetry`:
a 200 response returns `ok`; any other status and any thrown network error
increments `attempt`, sleeps `INITIAL_BACKOFF_MS * 2^(attempt-1)`, and
retries; when the budget is gone the typed failure is returned. The fuel
argument is `MAX_RETRIES - attempt`. -/
def fetchPageGo : List Save2.Outcome → Nat → PageResult
  | _, 0 => .err ("Failed after " ++ toString MAX_RETRIES ++ " retries")
  | [], _ + 1 => .err "no outcome"
  | .response status body :: rest, n + 1 =>
    if status = 200 then .ok body else fetchPageGo rest n
  | .networkError _ :: rest, n + 1 => fetchPageGo rest n

/-- `fetchPageWithRetry(url)` of `fetch_levels.js`, as a function of the
attempt outcomes. -/
def fetchPageWithRetry (outcomes : List Save2.Outcome) : PageResult :=
  fetchPageGo outcomes MAX_RETRIES

/-- A course as the level fetcher sees it: only its `uri` field is consulted
(`appendUniqueCoursesToNdjson` dedups by `c.uri`); the payload is opaque. -/
structure Course where
  uri : Option String
  payload : String
deriving DecidableEq, Repr

/-- `appendUniqueCoursesToNdjson` (`fetch_levels.js` lines 123–149): walks the
page's courses, skips any course without a `uri` and any whose `uri` is in
`uriSet`, appends the rest to the NDJSON stream and adds their uris to the
set. Returns (appended courses, updated uri set, appended count). The JS
`if (!uri) continue` is falsy on null/undefined and the empty string. -/
def appendUniqueCourses : List Course → List String → List Course × List String
  | [], uriSet => ([], uriSet)
  | c :: rest, uriSet =>
    match c.uri with
    | none => appendUniqueCourses rest uriSet
    | some u =>
      if u = "" then appendUniqueCourses rest uriSet
      else if uriSet.contains u then appendUniqueCourses rest uriSet
      else
        let r := appendUniqueCourses rest (u :: uriSet)
        (c :: r.1, r.2)

/-- `loadIndex` (`fetch_levels.js` lines 90–100): the uri set a run starts
with is exactly the persisted index file's array (or empty when the file is
missing/unparseable). The persisted index is passed in as a list. -/
def loadIndex (persisted : Option (List String)) : List String :=
  match persisted with
  | some arr => arr
  | none => []

end FetchLevels

namespace Save2

/-- Does this attempt outcome satisfy `res.status === 200` (the only success
test the level fetcher's executor performs)? -/
def isOk200 : Outcome → Bool
  | .response status _ => status == 200
  | .networkError _ => false

end Save2

namespace FsModel

/-! ### File-system model for checkpoint persistence.

A checkpoint save is embedded as a trace of primitive file operations on a
two-file state (the target checkpoint file and the temporary file). A crash
may interrupt the trace after any number of completed operations; the
operation in progress, if it is a write, may have put down any prefix of its
content. A rename is atomic: it either happened or did not. -/

/-- The two files a save routine touches: the checkpoint target and its
temporary sibling. `none` = file absent. -/
structure Fs where
  target : Option String
  tmp : Option String
deriving DecidableEq, Repr

/-- Primitive operations a save routine performs. A rename carries whether
this attempt succeeds (`fs.rename` resolving) or fails (EPERM/ENOENT or
another error — either way the files are untouched). -/
inductive FsOp where
  | writeTmp (c : String)
  | renameTmpToTarget (ok : Bool)
  | writeTarget (c : String)
  | unlinkTmp
deriving DecidableEq, Repr

/-- Effect of one completed operation. -/
def applyOp (fs : Fs) : FsOp → Fs
  | .writeTmp c => { fs with tmp := some c }
  | .renameTmpToTarget ok =>
    if ok then { target := fs.tmp, tmp := none } else fs
  | .writeTarget c => { fs with target := some c }
  | .unlinkTmp => { fs with tmp := none }

/-- Effect of a completed trace. -/
def runOps (fs : Fs) : List FsOp → Fs
  | [] => fs
  | op :: rest => runOps (applyOp fs op) rest

/-- Is `p` a prefix of `c`? (Character-list version of `String.isPrefixOf`,
kept structurally recursive.) -/
def strLeads (p c : String) : Bool :=
  p.data.isPrefixOf c.data

/-- State after a crash that interrupts the trace: the first `n` operations
completed; if the next operation is a write, it may have written any prefix
`p` of its content before the crash (a non-prefix `p` means the write had
not started). -/
def crashResult (fs : Fs) (ops : List FsOp) (n : Nat) (p : String) : Fs :=
  let base := runOps fs (ops.take n)
  match (ops.drop n).head? with
  | some (.writeTarget c) =>
    if strLeads p c then { base with target := some p } else base
  | some (.writeTmp c) =>
    if strLeads p c then { base with tmp := some p } else base
  | _ => base

/-- Outcome of one `fs.rename` attempt inside `safeWriteMetaFile`
(`src/00save2.js` lines 78–91): success, a retryable EPERM/ENOENT error
(sleep and try again), or another error (unlink the temp file and throw). -/
inductive RenameOutcome where
  | success
  | retryable
  | fatal
deriving DecidableEq, Repr

/-- The rename phase of `safeWriteMetaFile`: up to five attempts; success
returns; a retryable error continues; another error unlinks the temp file
and throws; after five failed attempts the routine warns and unlinks the
temp file. The input lists each attempt's outcome. -/
def renameAttempts : List RenameOutcome → List FsOp
  | [] => [.unlinkTmp]
  | .success :: _ => [.renameTmpToTarget true]
  | .retryable :: rest => .renameTmpToTarget false :: renameAttempts rest
  | .fatal :: _ => [.renameTmpToTarget false, .unlinkTmp]

/-- `safeWriteMetaFile(meta)` of `src/00save2.js` lines 75–95 as an
operation trace: write the serialized meta to a fresh temp file, then run
the bounded rename loop (`for (attempt = 0; attempt < 5; ...)` — hence
`take 5`). -/
def safeWriteMetaFileOps (c : String) (outs : List RenameOutcome) : List FsOp :=
  .writeTmp c :: renameAttempts (outs.take 5)

/-- `saveCountryMeta(metaPath, meta)` of `src/02fetchCountries.js`
lines 118–126: identical temp-write/rename-retry shape, but every rename
failure is retried (the catch has no fatal branch). -/
def saveCountryMetaOps (c : String) (oks : List Bool) : List FsOp :=
  .writeTmp c ::
    renameAttempts ((oks.take 5).map (fun ok =>
      if ok then RenameOutcome.success else RenameOutcome.retryable))

/-- `saveProgress(level, progressObj)` of `src/unnamed/part_000` lines
118–120: `fs.writeFileSync(progressPathFor(level), JSON.stringify(...))` —
a direct in-place write of the target, no temp file and no rename. -/
def saveProgressOps (c : String) : List FsOp :=
  [.writeTarget c]

end FsModel

namespace RateLimiter

/-! ### Token-bucket rate limiter of `src/00save2.js` lines 23–26
(`src/02fetchCountries.js` lines 18–23 is the same shape with
`MAX_RPS = 20`):
```
const MAX_RPS = 3;
let tokens = MAX_RPS;
setInterval(() => { tokens = Math.min(tokens + MAX_RPS, MAX_RPS); }, 1000);
async function rateLimit() { while (tokens <= 0) await sleep(50); tokens--; }
```
A run is modelled as a timed trace of events: the timer's refill ticks (the
k-th at time `1000 * k` ms) and the token acquisitions performed by
`rateLimit` (each requires a positive token count — the `while` guard — and
decrements it; the check and decrement are a single event-loop turn). -/

/-- `MAX_RPS` constant of `src/00save2.js`. -/
def MAX_RPS : Nat := 3

/-- An event of a rate-limiter run. -/
inductive Ev where
  | refill
  | acquire
deriving DecidableEq, Repr

/-- Validity of a trace suffix given the current token count, the last event
time, and the index `k` of the next pending refill tick: times are
nondecreasing, the k-th refill happens exactly at `1000 * k`, and an
acquisition happens strictly before the next pending tick with a positive
token count. -/
def validFrom (tokens lastTime k : Nat) : List (Nat × Ev) → Bool
  | [] => true
  | (t, .refill) :: rest =>
    decide (lastTime ≤ t) && decide (t = 1000 * k) &&
      validFrom (min (tokens + MAX_RPS) MAX_RPS) t (k + 1) rest
  | (t, .acquire) :: rest =>
    decide (lastTime ≤ t) && decide (t < 1000 * k) && decide (0 < tokens) &&
      validFrom (tokens - 1) t k rest

/-- A valid run starts with a full bucket (`let tokens = MAX_RPS`) at time 0
with the first refill tick pending at 1000 ms. -/
def validTrace (tr : List (Nat × Ev)) : Bool :=
  validFrom MAX_RPS 0 1 tr

/-- Is the event an acquisition (an outbound request being released)? -/
def isAcquire : Nat × Ev → Bool
  | (_, .acquire) => true
  | _ => false

/-- Number of requests released in the 1-second sliding window starting at
`t0` (ms). -/
def countWindow (tr : List (Nat × Ev)) (t0 : Nat) : Nat :=
  (tr.filter (fun e =>
    isAcquire e && decide (t0 ≤ e.1) && decide (e.1 < t0 + 1000))).length

/-- Total number of requests released in the whole trace. -/
def countAcquire (tr : List (Nat × Ev)) : Nat :=
  (tr.filter isAcquire).length

/-- Number of refill ticks in the trace. -/
def countRefill (tr : List (Nat × Ev)) : Nat :=
  (tr.filter (fun e => !isAcquire e)).length

/-- A run in which the workers drain the bucket just before the refill tick
at t = 1000 ms and drain it again right after: six requests inside the
sliding window [900, 1900). -/
def burstTrace : List (Nat × Ev) :=
  [(900, .acquire), (901, .acquire), (902, .acquire),
   (1000, .refill),
   (1001, .acquire), (1002, .acquire), (1003, .acquire)]

end RateLimiter

namespace Save2

/-- An item carrying only an `id` field — the payload shape the search API
returns for qualification records. -/
def mkItem (s : String) : Item :=
  { id := some s, uuid := none, identifier := none,
    escoIdentifier := none, uri := none }

/-- An item none of whose five identifier fields is present:
`getItemId` returns null for it. -/
def anonItem : Item :=
  { id := none, uuid := none, identifier := none,
    escoIdentifier := none, uri := none }

/-- An item carrying only `escoIdentifier` and `uri` — distinguishes the
source's extraction order from the spec's. -/
def escoUriItem : Item :=
  { id := none, uuid := none, identifier := none,
    escoIdentifier := some "escoid", uri := some "uriid" }

/-- Ten distinct identifiers for the first page of the termination
scenario. -/
def idsPageA : List String :=
  ["a0", "a1", "a2", "a3", "a4", "a5", "a6", "a7", "a8", "a9"]

/-- Ten distinct identifiers for the second page. -/
def idsPageB : List String :=
  ["b0", "b1", "b2", "b3", "b4", "b5", "b6", "b7", "b8", "b9"]

/-- Five distinct identifiers for the third page. -/
def idsPageC : List String :=
  ["c0", "c1", "c2", "c3", "c4"]

end Save2

namespace Save2

/-! ### Supporting lemmas about the bulk fetcher. -/

theorem getItemId_mkItem (s : String) : getItemId (mkItem s) = some s := rfl

/-- On a page of id-carrying items whose identifiers are nonempty, distinct,
and not yet seen, the de-dup filter accepts every item and records all the
identifiers. -/
theorem filterNew_map_mkItem (l : List String) (seen : List String)
    (hne : ∀ s ∈ l, s ≠ "") (hdisj : ∀ s ∈ l, s ∉ seen) (hnd : l.Nodup) :
    filterNew (l.map mkItem) seen = (l.map mkItem, l.reverse ++ seen) := by
  induction l generalizing seen with
  | nil => rfl
  | cons a rest ih =>
    have ha : a ≠ "" := hne a (by simp)
    have hmem : a ∉ seen := hdisj a (by simp)
    have hcont : seen.contains a = false := by
      simpa using hmem
    have hrest := ih (a :: seen)
      (fun s hs => hne s (by simp [hs]))
      (fun s hs => by
        rcases List.nodup_cons.mp hnd with ⟨hna, _⟩
        simp only [List.mem_cons]
        rintro (rfl | hsm)
        · exact hna hs
        · exact hdisj s (by simp [hs]) hsm)
      (List.nodup_cons.mp hnd).2
    simp only [List.map_cons, filterNew, getItemId_mkItem, if_neg ha, hcont,
      Bool.false_eq_true, if_false, hrest, List.reverse_cons]
    simp

theorem fetchLoop_nil (st : LoopState) : fetchLoop st [] = st := rfl

/-- An empty page (below the page cap) marks the scope complete. -/
theorem fetchLoop_empty_page (st : LoopState) (rest : List (List Item))
    (h : st.entry.totalPages < MAX_PAGES_PER_LEVEL) :
    fetchLoop st ([] :: rest) = { st with entry := markComplete st.entry } := by
  simp [fetchLoop, not_le.mpr h]

/-- A non-empty page (below the page cap) filters, appends, advances the
cursor by `PAGE_SIZE`, and loops. -/
theorem fetchLoop_page (st : LoopState) (items : List Item)
    (rest : List (List Item))
    (h : st.entry.totalPages < MAX_PAGES_PER_LEVEL)
    (hlen : items.length ≠ 0) :
    fetchLoop st (items :: rest) =
      fetchLoop
        { entry := markUpdated st.entry (st.fromOfs + PAGE_SIZE)
            (filterNew items st.seen).1.length
          fromOfs := st.fromOfs + PAGE_SIZE
          seen := (filterNew items st.seen).2
          out := st.out ++ (filterNew items st.seen).1 } rest := by
  simp [fetchLoop, not_le.mpr h, hlen]

/-- Running `fetchAllFor` on a fresh scope goes straight into the page loop:
no resume branch fires when `from = 0`. -/
theorem fetchAllFor_fresh (fileExists : Bool) (fileLines : Nat)
    (pages : List (List Item)) :
    fetchAllFor freshEntry fileExists fileLines pages =
      fetchLoop { entry := freshEntry, fromOfs := 0, seen := [], out := [] }
        pages := by
  cases fileExists <;> rfl

/-- The checkpoint accounting tracks the output file exactly: across any run
of the page loop, the increase of `totalItems` equals the number of records
appended to the output. -/
theorem fetchLoop_totalItems_out (pages : List (List Item)) :
    ∀ st : LoopState,
      (fetchLoop st pages).entry.totalItems + st.out.length =
        (fetchLoop st pages).out.length + st.entry.totalItems := by
  induction pages with
  | nil => intro st; simp [fetchLoop_nil, Nat.add_comm]
  | cons items rest ih =>
    intro st
    by_cases hcap : MAX_PAGES_PER_LEVEL ≤ st.entry.totalPages
    · simp [fetchLoop, hcap, markComplete, Nat.add_comm]
    · by_cases hempty : items.length = 0
      · rw [List.length_eq_zero] at hempty
        subst hempty
        rw [fetchLoop_empty_page st rest (not_le.mp hcap)]
        simp [markComplete, Nat.add_comm]
      · rw [fetchLoop_page st items rest (not_le.mp hcap) hempty]
        have h := ih ⟨markUpdated st.entry (st.fromOfs + PAGE_SIZE)
          (filterNew items st.seen).1.length, st.fromOfs + PAGE_SIZE,
          (filterNew items st.seen).2, st.out ++ (filterNew items st.seen).1⟩
        simp only [markUpdated, List.length_append] at h ⊢
        omega

/-- Within the page loop, the persisted offset never decreases: as long as
the entry's offset starts at or below the loop cursor (true whenever the
loop is entered), every `markUpdated`-persisted offset is at least the
previous one. -/
theorem fetchLoop_fromOfs_mono (pages : List (List Item)) :
    ∀ st : LoopState, st.entry.fromOfs ≤ st.fromOfs →
      st.entry.fromOfs ≤ (fetchLoop st pages).entry.fromOfs := by
  induction pages with
  | nil => intro st _; exact Nat.le_refl _
  | cons items rest ih =>
    intro st hst
    by_cases hcap : MAX_PAGES_PER_LEVEL ≤ st.entry.totalPages
    · simp [fetchLoop, hcap, markComplete]
    · by_cases hempty : items.length = 0
      · rw [List.length_eq_zero] at hempty
        subst hempty
        rw [fetchLoop_empty_page st rest (not_le.mp hcap)]
        simp [markComplete]
      · rw [fetchLoop_page st items rest (not_le.mp hcap) hempty]
        have h2 := ih ⟨markUpdated st.entry (st.fromOfs + PAGE_SIZE)
          (filterNew items st.seen).1.length, st.fromOfs + PAGE_SIZE,
          (filterNew items st.seen).2, st.out ++ (filterNew items st.seen).1⟩
          (by simp [markUpdated])
        simp only [markUpdated] at h2
        exact le_trans (le_trans hst (Nat.le_add_right _ _)) h2

end Save2

/-! ## Claims -/

/-- C1 (counterexample): the claim that every persisting call path writes an
offset at least as large as the previously persisted one is false. With a
persisted entry at offset 10 whose output file holds only 5 lines, the
resume-time realignment persists offset 0; with the file missing, the
restart path also persists offset 0 — both strictly below the previously
persisted 10. -/
theorem c1_resume_paths_decrease_offset :
    (Save2.fetchAllFor ⟨10, false, 1, 5⟩ true 5 []).entry.fromOfs <
      (⟨10, false, 1, 5⟩ : Save2.MetaEntry).fromOfs ∧
    (Save2.fetchAllFor ⟨10, false, 1, 5⟩ false 0 []).entry.fromOfs <
      (⟨10, false, 1, 5⟩ : Save2.MetaEntry).fromOfs := by
  constructor <;> decide

/-- C1 (amended): within a run, the `markUpdated`-then-`saveMeta` path is
monotone — starting from a loop state whose entry offset is at most the loop
cursor (as holds whenever the loop is entered), the persisted offset never
decreases; only the resume-time realignment and the missing-file restart can
persist a smaller offset. -/
theorem c1_in_run_offset_monotone (st : Save2.LoopState)
    (pages : List (List Save2.Item))
    (h : st.entry.fromOfs ≤ st.fromOfs) :
    st.entry.fromOfs ≤ (Save2.fetchLoop st pages).entry.fromOfs :=
  Save2.fetchLoop_fromOfs_mono pages st h

/-- C1 (witness): the monotonicity theorem applied to a fresh scope
processing one one-item page. -/
theorem c1_in_run_offset_monotone_witness :
    (Save2.LoopState.mk Save2.freshEntry 0 [] []).entry.fromOfs ≤
      (Save2.fetchLoop ⟨Save2.freshEntry, 0, [], []⟩
        [[Save2.mkItem "w"]]).entry.fromOfs :=
  c1_in_run_offset_monotone ⟨Save2.freshEntry, 0, [], []⟩ [[Save2.mkItem "w"]]
    (by decide)

/-- C6: the per-page count added to the checkpoint accounting is the
post-dedup count, not the raw page size. First conjunct: across any run of
the page loop, `totalItems` grows by exactly the number of records appended
to the output. Remaining conjuncts: when two consecutive pages (raw sizes
2 and 2) share the identifier `X`, the output holds exactly one record for
`X` and the final `totalItems` is 3 — the second page contributed only its
net-new item. -/
theorem c6_accounting_is_post_dedup :
    (∀ (st : Save2.LoopState) (pages : List (List Save2.Item)),
      (Save2.fetchLoop st pages).entry.totalItems + st.out.length =
        (Save2.fetchLoop st pages).out.length + st.entry.totalItems) ∧
    ((Save2.fetchAllFor Save2.freshEntry false 0
        [[Save2.mkItem "X", Save2.mkItem "a"],
         [Save2.mkItem "X", Save2.mkItem "b"], []]).out.filter
        (fun it => Save2.getItemId it == some "X")).length = 1 ∧
    (Save2.fetchAllFor Save2.freshEntry false 0
        [[Save2.mkItem "X", Save2.mkItem "a"],
         [Save2.mkItem "X", Save2.mkItem "b"], []]).entry.totalItems = 3 ∧
    (Save2.fetchAllFor Save2.freshEntry false 0
        [[Save2.mkItem "X", Save2.mkItem "a"],
         [Save2.mkItem "X", Save2.mkItem "b"], []]).entry.totalPages = 2 :=
  ⟨fun st pages => Save2.fetchLoop_totalItems_out pages st,
   by decide, by decide, by decide⟩

/-- C9 (counterexample): on an item carrying only `escoIdentifier` and
`uri`, the source's extraction returns the `escoIdentifier` value while the
spec's stated order (id/uuid/identifier/uri) would return the `uri` value —
so a field other than the four listed IS consulted before `uri`. -/
theorem c9_esco_consulted_before_uri :
    Save2.getItemId Save2.escoUriItem = some "escoid" ∧
    Save2.getItemIdSpecOrder Save2.escoUriItem = some "uriid" ∧
    Save2.getItemId Save2.escoUriItem ≠
      Save2.getItemIdSpecOrder Save2.escoUriItem := by
  refine ⟨rfl, rfl, ?_⟩
  decide

/-- C9 (amended): the identifier is extracted by trying the fields
`id`, `uuid`, `identifier`, `escoIdentifier`, `uri` in exactly that
preference order: each field's value is returned precisely when all the
earlier fields are absent. -/
theorem c9_preference_order (it : Save2.Item) (v : String) :
    (it.id = some v → Save2.getItemId it = some v) ∧
    (it.id = none → it.uuid = some v → Save2.getItemId it = some v) ∧
    (it.id = none → it.uuid = none → it.identifier = some v →
      Save2.getItemId it = some v) ∧
    (it.id = none → it.uuid = none → it.identifier = none →
      it.escoIdentifier = some v → Save2.getItemId it = some v) ∧
    (it.id = none → it.uuid = none → it.identifier = none →
      it.escoIdentifier = none → Save2.getItemId it = it.uri) := by
  refine ⟨?_, ?_, ?_, ?_, ?_⟩ <;> intros <;> simp_all [Save2.getItemId]

/-- C9 (witness): the order theorem applied to an item carrying only an
`id`. -/
theorem c9_preference_order_witness :
    Save2.getItemId (Save2.mkItem "a") = some "a" :=
  (c9_preference_order (Save2.mkItem "a") "a").1 rfl

/-- C10: an item whose identifier extraction returns null is unconditionally
accepted — the seen set is neither consulted nor extended for it — and such
items can be appended more than once: two consecutive one-item pages holding
the same identifier-less item both get appended. -/
theorem c10_null_id_bypasses_dedup :
    (∀ (it : Save2.Item) (rest : List Save2.Item) (seen : List String),
      Save2.getItemId it = none →
        Save2.filterNew (it :: rest) seen =
          (it :: (Save2.filterNew rest seen).1,
            (Save2.filterNew rest seen).2)) ∧
    (Save2.fetchAllFor Save2.freshEntry false 0
        [[Save2.anonItem], [Save2.anonItem], []]).out =
      [Save2.anonItem, Save2.anonItem] := by
  constructor
  · intro it rest seen h
    simp [Save2.filterNew, h]
  · decide

/-- C10 (witness): the bypass equation applied to the identifier-less item
against a nonempty seen set. -/
theorem c10_null_id_bypasses_dedup_witness :
    Save2.filterNew [Save2.anonItem] ["z"] = ([Save2.anonItem], ["z"]) := by
  have h := c10_null_id_bypasses_dedup.1 Save2.anonItem [] ["z"] rfl
  simpa using h

/-- C5: a scope starting at offset 0 whose source returns pages of sizes
10, 10, 5, 0 with pairwise-distinct nonempty identifiers terminates with its
checkpoint entry at offset 30, completed, 3 accepted pages and 25 total
items: each non-empty page advances the offset by `PAGE_SIZE` and the empty
page marks the scope completed without advancing further. -/
theorem c5_pagination_terminates (l1 l2 l3 : List String)
    (h1 : l1.length = 10) (h2 : l2.length = 10) (h3 : l3.length = 5)
    (hnd : (l1 ++ l2 ++ l3).Nodup) (hne : "" ∉ l1 ++ l2 ++ l3) :
    (Save2.fetchAllFor Save2.freshEntry false 0
        [l1.map Save2.mkItem, l2.map Save2.mkItem, l3.map Save2.mkItem,
         []]).entry =
      ⟨30, true, 3, 25⟩ := by
  rw [List.append_assoc] at hnd hne
  obtain ⟨hnd1, hnd23, hdisj1⟩ := List.nodup_append.mp hnd
  obtain ⟨hnd2, hnd3, hdisj23⟩ := List.nodup_append.mp hnd23
  have hne1 : ∀ s ∈ l1, s ≠ "" := fun s hs heq =>
    hne (heq ▸ List.mem_append_left _ hs)
  have hne2 : ∀ s ∈ l2, s ≠ "" := fun s hs heq =>
    hne (heq ▸ List.mem_append_right _ (List.mem_append_left _ hs))
  have hne3 : ∀ s ∈ l3, s ≠ "" := fun s hs heq =>
    hne (heq ▸ List.mem_append_right _ (List.mem_append_right _ hs))
  have hA := Save2.filterNew_map_mkItem l1 [] hne1 (by simp) hnd1
  have hB := Save2.filterNew_map_mkItem l2 (l1.reverse ++ []) hne2
    (fun s hs => by
      simp only [List.append_nil, List.mem_reverse]
      exact fun hm => hdisj1 hm (List.mem_append_left _ hs))
    hnd2
  have hC := Save2.filterNew_map_mkItem l3 (l2.reverse ++ (l1.reverse ++ []))
    hne3
    (fun s hs => by
      simp only [List.append_nil, List.mem_append, List.mem_reverse]
      rintro (hm | hm)
      · exact hdisj23 hm hs
      · exact hdisj1 hm (List.mem_append_right _ hs))
    hnd3
  rw [Save2.fetchAllFor_fresh]
  rw [Save2.fetchLoop_page _ _ _
    (by simp [Save2.markUpdated, Save2.freshEntry, Save2.MAX_PAGES_PER_LEVEL])
    (by simp [h1])]
  dsimp only
  rw [hA]
  dsimp only
  rw [Save2.fetchLoop_page _ _ _
    (by simp [Save2.markUpdated, Save2.freshEntry, Save2.MAX_PAGES_PER_LEVEL])
    (by simp [h2])]
  dsimp only
  rw [hB]
  dsimp only
  rw [Save2.fetchLoop_page _ _ _
    (by simp [Save2.markUpdated, Save2.freshEntry, Save2.MAX_PAGES_PER_LEVEL])
    (by simp [h3])]
  dsimp only
  rw [hC]
  dsimp only
  rw [Save2.fetchLoop_empty_page _ _
    (by simp [Save2.markUpdated, Save2.freshEntry, Save2.MAX_PAGES_PER_LEVEL])]
  simp [Save2.markComplete, Save2.markUpdated, Save2.freshEntry,
    Save2.PAGE_SIZE, List.length_map, h1, h2, h3]

/-- C5 (witness): the termination theorem applied to three concrete pages of
distinct identifiers. -/
theorem c5_pagination_terminates_witness :
    (Save2.fetchAllFor Save2.freshEntry false 0
        [Save2.idsPageA.map Save2.mkItem, Save2.idsPageB.map Save2.mkItem,
         Save2.idsPageC.map Save2.mkItem, []]).entry =
      ⟨30, true, 3, 25⟩ :=
  c5_pagination_terminates Save2.idsPageA Save2.idsPageB Save2.idsPageC
    (by decide) (by decide) (by decide) (by decide) (by decide)

/-- C2 (counterexample): an HTTP 4xx other than 429 is NOT returned
immediately. On a request whose four attempts all return HTTP 404, the bulk
fetcher's executor performs all `MAX_RETRIES + 1 = 4` attempts and sleeps
three exponential backoffs (800, 1600, 3200 ms) before finally propagating
the body-carrying error — the 404 consumed the whole retry budget. -/
theorem c2_4xx_consumes_retries_and_backoffs :
    (Save2.fetchWithRetry
        (List.replicate 4 (Save2.Outcome.response 404 "notfound"))).attemptsUsed =
      Save2.MAX_RETRIES + 1 ∧
    (Save2.fetchWithRetry
        (List.replicate 4 (Save2.Outcome.response 404 "notfound"))).backoffs =
      [800, 1600, 3200] ∧
    (Save2.fetchWithRetry
        (List.replicate 4 (Save2.Outcome.response 404 "notfound"))).result =
      .error (Save2.httpErrMsgWithBody 404 "notfound") :=
  ⟨rfl, rfl, rfl⟩

/-- C2 (amended): a 4xx status other than 429 is classified distinctly — its
response body is captured into the error — but it is retried like any other
failure: when every attempt returns such a status, the executor uses all
four attempts, incurs the full backoff schedule, and then throws the last
(body-carrying) error rather than returning immediately. -/
theorem c2_4xx_body_captured_but_retried (status : Nat) (body : String)
    (h4 : 400 ≤ status) (h5 : status < 500) (h9 : status ≠ 429) :
    Save2.classifyAttempt (.response status body) =
      .error (Save2.httpErrMsgWithBody status body) ∧
    (Save2.fetchWithRetry
        (List.replicate 4 (Save2.Outcome.response status body))).attemptsUsed =
      Save2.MAX_RETRIES + 1 ∧
    (Save2.fetchWithRetry
        (List.replicate 4 (Save2.Outcome.response status body))).backoffs =
      [800, 1600, 3200] ∧
    (Save2.fetchWithRetry
        (List.replicate 4 (Save2.Outcome.response status body))).result =
      .error (Save2.httpErrMsgWithBody status body) := by
  have hc : Save2.classifyAttempt (Save2.Outcome.response status body) =
      .error (Save2.httpErrMsgWithBody status body) := by
    simp only [Save2.classifyAttempt]
    rw [if_neg (by omega), if_neg (by omega)]
  refine ⟨hc, ?_, ?_, ?_⟩ <;>
    simp [Save2.fetchWithRetry, Save2.fetchWithRetryAux, List.replicate, hc,
      Save2.MAX_RETRIES]

/-- C2 (witness): the amended theorem at status 404 with body `notfound`. -/
theorem c2_4xx_body_captured_but_retried_witness :
    Save2.classifyAttempt (.response 404 "notfound") =
      .error (Save2.httpErrMsgWithBody 404 "notfound") ∧
    (Save2.fetchWithRetry
        (List.replicate 4 (Save2.Outcome.response 404 "notfound"))).attemptsUsed =
      Save2.MAX_RETRIES + 1 ∧
    (Save2.fetchWithRetry
        (List.replicate 4 (Save2.Outcome.response 404 "notfound"))).backoffs =
      [800, 1600, 3200] ∧
    (Save2.fetchWithRetry
        (List.replicate 4 (Save2.Outcome.response 404 "notfound"))).result =
      .error (Save2.httpErrMsgWithBody 404 "notfound") :=
  c2_4xx_body_captured_but_retried 404 "notfound" (by decide) (by decide)
    (by decide)

/-- C7 (counterexample): after exhausting its retry budget the bulk
fetcher's executor throws the last error past its boundary (`throw lastErr`;
here `Except.error` models the JS throw) instead of returning a typed
failure result. Four network failures exhaust the budget and the final
error propagates to the caller. -/
theorem c7_bulk_executor_throws :
    (Save2.fetchWithRetry
        (List.replicate 4 (Save2.Outcome.networkError "connreset"))).result =
      .error "connreset" :=
  rfl

/-- If no attempt returns a 200 response, `fetchPageGo` returns the typed
failure once its budget is spent. -/
theorem fetchPageGo_all_fail (outcomes : List Save2.Outcome) :
    ∀ n : Nat, (∀ o ∈ outcomes, Save2.isOk200 o = false) →
      n ≤ outcomes.length →
      FetchLevels.fetchPageGo outcomes n =
        .err ("Failed after " ++ toString FetchLevels.MAX_RETRIES ++
          " retries") := by
  induction outcomes with
  | nil =>
    intro n _ hn
    have h0 : n = 0 := Nat.le_zero.mp (by simpa using hn)
    subst h0
    rfl
  | cons o rest ih =>
    intro n hfail hn
    cases n with
    | zero => cases o <;> rfl
    | succ m =>
      have ho := hfail o (by simp)
      cases o with
      | response status body =>
        have hst : status ≠ 200 := by
          simpa [Save2.isOk200] using ho
        rw [show FetchLevels.fetchPageGo (Save2.Outcome.response status body :: rest)
            (m + 1) = if status = 200 then .ok body
              else FetchLevels.fetchPageGo rest m from rfl]
        rw [if_neg hst]
        exact ih m (fun o' ho' => hfail o' (by simp [ho'])) (by simpa using hn)
      | networkError msg =>
        exact ih m (fun o' ho' => hfail o' (by simp [ho'])) (by simpa using hn)

/-- C7 (amended): only the level fetcher's executor honours the typed-result
contract — given at least `MAX_RETRIES` outcomes none of which is a 200
response, `fetchPageWithRetry` RETURNS the `ok: false` failure value; the
bulk and detail fetchers' executors instead throw the last error, and their
callers must catch it. -/
theorem c7_level_executor_returns_typed_failure
    (outcomes : List Save2.Outcome)
    (hfail : ∀ o ∈ outcomes, Save2.isOk200 o = false)
    (hlen : FetchLevels.MAX_RETRIES ≤ outcomes.length) :
    FetchLevels.fetchPageWithRetry outcomes =
      .err ("Failed after " ++ toString FetchLevels.MAX_RETRIES ++
        " retries") :=
  fetchPageGo_all_fail outcomes FetchLevels.MAX_RETRIES hfail hlen

/-- C7 (witness): the typed-failure theorem on six straight network
failures. -/
theorem c7_level_executor_returns_typed_failure_witness :
    FetchLevels.fetchPageWithRetry
        (List.replicate 6 (Save2.Outcome.networkError "conn")) =
      .err ("Failed after " ++ toString FetchLevels.MAX_RETRIES ++
        " retries") :=
  c7_level_executor_returns_typed_failure
    (List.replicate 6 (Save2.Outcome.networkError "conn"))
    (by decide) (by decide)

/-- C3 (counterexample): in the bulk fetcher the de-dup state is NOT
pre-populated from persisted state: `fetchAllFor` creates its `seen` set
empty on every call. Run 1 on a fresh scope fetches one page and appends the
record with identifier `x` (first conjunct); a warm restart of the same
scope — resuming from the persisted entry with the one-line output file
present — realigns its offset, re-fetches the same record, and appends it a
second time (second conjunct), so the output file ends with two copies. -/
theorem c3_bulk_seen_set_starts_empty :
    (Save2.fetchAllFor Save2.freshEntry false 0 [[Save2.mkItem "x"]]).out =
      [Save2.mkItem "x"] ∧
    (Save2.fetchAllFor
        (Save2.fetchAllFor Save2.freshEntry false 0 [[Save2.mkItem "x"]]).entry
        true 1 [[Save2.mkItem "x"], []]).out =
      [Save2.mkItem "x"] := by
  constructor <;> decide

/-- In the level fetcher, a course whose uri is already in the uri set is
never in the appended batch. -/
theorem appendUniqueCourses_not_in_set
    (courses : List FetchLevels.Course) :
    ∀ (uriSet : List String) (c : FetchLevels.Course) (u : String),
      c ∈ (FetchLevels.appendUniqueCourses courses uriSet).1 →
      c.uri = some u → u ∉ uriSet := by
  induction courses with
  | nil =>
    intro uriSet c u hc
    simp [FetchLevels.appendUniqueCourses] at hc
  | cons a rest ih =>
    intro uriSet c u hc hu
    rcases ha : a.uri with _ | ua
    · simp only [FetchLevels.appendUniqueCourses, ha] at hc
      exact ih uriSet c u hc hu
    · simp only [FetchLevels.appendUniqueCourses, ha] at hc
      by_cases hblank : ua = ""
      · rw [if_pos hblank] at hc
        exact ih uriSet c u hc hu
      · rw [if_neg hblank] at hc
        by_cases hcont : uriSet.contains ua = true
        · rw [if_pos hcont] at hc
          exact ih uriSet c u hc hu
        · rw [if_neg hcont] at hc
          dsimp only at hc
          rcases List.mem_cons.mp hc with rfl | htl
          · rw [ha] at hu
            cases hu
            intro hmem
            exact hcont (by simpa using hmem)
          · have hne := ih (ua :: uriSet) c u htl hu
            intro hmem
            exact hne (by simp [hmem])

/-- C3 (amended): the level fetcher pre-populates its de-dup state from the
persisted index file and never re-appends a uri recorded there (proved
here); the detail fetcher likewise skips identifiers whose output file
already exists; but the bulk fetcher's `seen` set starts empty on every run,
so its warm restarts can re-append previously written records. -/
theorem c3_level_index_prepopulated (persisted : List String)
    (courses : List FetchLevels.Course) (c : FetchLevels.Course) (u : String)
    (hc : c ∈ (FetchLevels.appendUniqueCourses courses
      (FetchLevels.loadIndex (some persisted))).1)
    (hu : c.uri = some u) : u ∉ persisted :=
  appendUniqueCourses_not_in_set courses
    (FetchLevels.loadIndex (some persisted)) c u hc hu

/-- C3 (witness): the index theorem on a persisted index `olduri` and a page
containing one new course. -/
theorem c3_level_index_prepopulated_witness :
    "newuri" ∉ ["olduri"] :=
  c3_level_index_prepopulated ["olduri"]
    [{ uri := some "newuri", payload := "pl" }]
    { uri := some "newuri", payload := "pl" } "newuri" (by decide) rfl

/-- C4 (counterexample): not every checkpoint persistence is atomic — the
level fetcher's `saveProgress` writes the progress file in place, so a crash
mid-write can leave the target holding a strict prefix of the new content:
neither the old checkpoint nor the new one, i.e. a corrupted file. -/
theorem c4_saveProgress_in_place_write_corrupts :
    (FsModel.crashResult ⟨some "oldprogress", none⟩
        (FsModel.saveProgressOps "newprogress") 0 "newp").target =
      some "newp" ∧
    (some "newp" : Option String) ≠ some "oldprogress" ∧
    (some "newp" : Option String) ≠ some "newprogress" := by
  refine ⟨?_, by decide, by decide⟩
  decide

theorem crashResult_cons (fs : FsModel.Fs) (op : FsModel.FsOp)
    (ops : List FsModel.FsOp) (n : Nat) (p : String) :
    FsModel.crashResult fs (op :: ops) (n + 1) p =
      FsModel.crashResult (FsModel.applyOp fs op) ops n p := rfl

theorem crashResult_nil (fs : FsModel.Fs) (n : Nat) (p : String) :
    FsModel.crashResult fs [] n p = fs := by
  simp [FsModel.crashResult, FsModel.runOps]

/-- Crash safety of the rename phase: starting with the full new content in
the temp file, every crash point leaves the target either untouched or
holding the full new content. -/
theorem renameAttempts_crash (outs : List FsModel.RenameOutcome) :
    ∀ (T : Option String) (c : String) (n : Nat) (p : String),
      (FsModel.crashResult ⟨T, some c⟩
        (FsModel.renameAttempts outs) n p).target = T ∨
      (FsModel.crashResult ⟨T, some c⟩
        (FsModel.renameAttempts outs) n p).target = some c := by
  induction outs with
  | nil =>
    intro T c n p
    cases n with
    | zero => left; rfl
    | succ m =>
      left
      simp only [FsModel.renameAttempts]
      rw [crashResult_cons, crashResult_nil]
      rfl
  | cons o rest ih =>
    intro T c n p
    cases o with
    | success =>
      cases n with
      | zero => left; rfl
      | succ m =>
        right
        simp only [FsModel.renameAttempts]
        rw [crashResult_cons, crashResult_nil]
        rfl
    | retryable =>
      cases n with
      | zero => left; rfl
      | succ m => exact ih T c m p
    | fatal =>
      cases n with
      | zero => left; rfl
      | succ m =>
        cases m with
        | zero => left; rfl
        | succ m2 =>
          left
          simp only [FsModel.renameAttempts]
          rw [crashResult_cons, crashResult_cons, crashResult_nil]
          rfl

/-- Crash safety of the whole temp-write/rename trace. -/
theorem writeTmpRename_crash_safe (old : String) (tmp0 : Option String)
    (c : String) (l : List FsModel.RenameOutcome) (n : Nat) (p : String) :
    (FsModel.crashResult ⟨some old, tmp0⟩
        (FsModel.FsOp.writeTmp c :: FsModel.renameAttempts l) n p).target =
      some old ∨
    (FsModel.crashResult ⟨some old, tmp0⟩
        (FsModel.FsOp.writeTmp c :: FsModel.renameAttempts l) n p).target =
      some c := by
  cases n with
  | zero =>
    left
    by_cases hp : FsModel.strLeads p c = true <;>
      simp [FsModel.crashResult, FsModel.runOps, hp]
  | succ m => exact renameAttempts_crash l (some old) c m p

/-- If every rename attempt fails, the completed save routine leaves the old
target untouched. -/
theorem renameAttempts_all_fail (l : List FsModel.RenameOutcome) :
    ∀ (T : Option String) (c : String),
      (∀ o ∈ l, o ≠ FsModel.RenameOutcome.success) →
      (FsModel.runOps ⟨T, some c⟩ (FsModel.renameAttempts l)).target = T := by
  induction l with
  | nil => intro T c _; rfl
  | cons o rest ih =>
    intro T c h
    cases o with
    | success => exact absurd rfl (h _ (by simp))
    | retryable => exact ih T c (fun o' ho' => h o' (by simp [ho']))
    | fatal => rfl

/-- C4 (amended): the bulk fetcher's `safeWriteMetaFile` and the detail
fetcher's `saveCountryMeta` are atomic: the content goes to a temp file and
reaches the target only through a rename retried a bounded number of times;
at every crash point the target holds either the previous checkpoint or the
full new one, and when every rename attempt fails the previous checkpoint
file is left intact. Only the level fetcher's in-place `saveProgress` (the
counterexample) violates atomicity. -/
theorem c4_meta_saves_atomic (old : String) (tmp0 : Option String)
    (c : String) (outs : List FsModel.RenameOutcome) (oks : List Bool)
    (n n2 : Nat) (p p2 : String) :
    ((FsModel.crashResult ⟨some old, tmp0⟩
        (FsModel.safeWriteMetaFileOps c outs) n p).target = some old ∨
      (FsModel.crashResult ⟨some old, tmp0⟩
        (FsModel.safeWriteMetaFileOps c outs) n p).target = some c) ∧
    ((FsModel.crashResult ⟨some old, tmp0⟩
        (FsModel.saveCountryMetaOps c oks) n2 p2).target = some old ∨
      (FsModel.crashResult ⟨some old, tmp0⟩
        (FsModel.saveCountryMetaOps c oks) n2 p2).target = some c) ∧
    ((∀ o ∈ outs, o ≠ FsModel.RenameOutcome.success) →
      (FsModel.runOps ⟨some old, tmp0⟩
        (FsModel.safeWriteMetaFileOps c outs)).target = some old) := by
  refine ⟨writeTmpRename_crash_safe old tmp0 c (outs.take 5) n p, ?_, ?_⟩
  · exact writeTmpRename_crash_safe old tmp0 c
      ((oks.take 5).map (fun ok =>
        if ok then FsModel.RenameOutcome.success
        else FsModel.RenameOutcome.retryable)) n2 p2
  · exact fun h => renameAttempts_all_fail (outs.take 5) (some old) c
      (fun o ho => h o (List.take_subset 5 outs ho))

/-- C4 (witness): the atomicity theorem on a concrete save whose five rename
attempts all fail with retryable errors, crashing after the second
attempt. -/
theorem c4_meta_saves_atomic_witness :
    ((FsModel.crashResult ⟨some "oldmeta", none⟩
        (FsModel.safeWriteMetaFileOps "newmeta"
          (List.replicate 5 FsModel.RenameOutcome.retryable)) 2 "ne").target =
        some "oldmeta" ∨
      (FsModel.crashResult ⟨some "oldmeta", none⟩
        (FsModel.safeWriteMetaFileOps "newmeta"
          (List.replicate 5 FsModel.RenameOutcome.retryable)) 2 "ne").target =
        some "newmeta") ∧
    ((FsModel.crashResult ⟨some "oldmeta", none⟩
        (FsModel.saveCountryMetaOps "newmeta" [false, false]) 1 "ne").target =
        some "oldmeta" ∨
      (FsModel.crashResult ⟨some "oldmeta", none⟩
        (FsModel.saveCountryMetaOps "newmeta" [false, false]) 1 "ne").target =
        some "newmeta") ∧
    (FsModel.runOps ⟨some "oldmeta", none⟩
        (FsModel.safeWriteMetaFileOps "newmeta"
          (List.replicate 5 FsModel.RenameOutcome.retryable))).target =
      some "oldmeta" :=
  ⟨(c4_meta_saves_atomic "oldmeta" none "newmeta"
      (List.replicate 5 FsModel.RenameOutcome.retryable) [false, false]
      2 1 "ne" "ne").1,
   (c4_meta_saves_atomic "oldmeta" none "newmeta"
      (List.replicate 5 FsModel.RenameOutcome.retryable) [false, false]
      2 1 "ne" "ne").2.1,
   (c4_meta_saves_atomic "oldmeta" none "newmeta"
      (List.replicate 5 FsModel.RenameOutcome.retryable) [false, false]
      2 1 "ne" "ne").2.2 (by decide)⟩

/-- C8 (counterexample): the sliding-window bound fails. The burst trace is
a valid run of the token bucket (each acquisition happens with a positive
token count, the refill tick fires at 1000 ms), yet the 1-second sliding
window starting at 900 ms contains 6 released requests — twice the
configured capacity `MAX_RPS = 3`. Refilling to full capacity once per
second only bounds refill-aligned intervals, not sliding windows straddling
a tick. -/
theorem c8_sliding_window_exceeds_capacity :
    RateLimiter.validTrace RateLimiter.burstTrace = true ∧
    RateLimiter.MAX_RPS < RateLimiter.countWindow RateLimiter.burstTrace 900 := by
  constructor <;> decide

theorem countAcquire_cons_refill (t : Nat) (rest : List (Nat × RateLimiter.Ev)) :
    RateLimiter.countAcquire ((t, .refill) :: rest) =
      RateLimiter.countAcquire rest := rfl

theorem countAcquire_cons_acquire (t : Nat) (rest : List (Nat × RateLimiter.Ev)) :
    RateLimiter.countAcquire ((t, .acquire) :: rest) =
      RateLimiter.countAcquire rest + 1 := rfl

theorem countRefill_cons_refill (t : Nat) (rest : List (Nat × RateLimiter.Ev)) :
    RateLimiter.countRefill ((t, .refill) :: rest) =
      RateLimiter.countRefill rest + 1 := rfl

theorem countRefill_cons_acquire (t : Nat) (rest : List (Nat × RateLimiter.Ev)) :
    RateLimiter.countRefill ((t, .acquire) :: rest) =
      RateLimiter.countRefill rest := rfl

/-- Token conservation: in any suffix of a valid run, the number of
acquisitions is bounded by the current tokens plus `MAX_RPS` per refill
tick. -/
theorem validFrom_acquire_bound (tr : List (Nat × RateLimiter.Ev)) :
    ∀ (tokens lastTime k : Nat),
      RateLimiter.validFrom tokens lastTime k tr = true →
      tokens ≤ RateLimiter.MAX_RPS →
      RateLimiter.countAcquire tr ≤
        tokens + RateLimiter.MAX_RPS * RateLimiter.countRefill tr := by
  induction tr with
  | nil =>
    intro tokens lastTime k _ _
    simp [RateLimiter.countAcquire]
  | cons e rest ih =>
    intro tokens lastTime k hv htok
    obtain ⟨t, ev⟩ := e
    cases ev with
    | refill =>
      simp only [RateLimiter.validFrom, Bool.and_eq_true, decide_eq_true_eq] at hv
      obtain ⟨⟨h1, h2⟩, h3⟩ := hv
      have hb := ih _ t (k + 1) h3 (min_le_right _ _)
      have hmin : min (tokens + RateLimiter.MAX_RPS) RateLimiter.MAX_RPS ≤
          RateLimiter.MAX_RPS := min_le_right _ _
      rw [countAcquire_cons_refill, countRefill_cons_refill]
      simp only [RateLimiter.MAX_RPS] at hb hmin ⊢
      omega
    | acquire =>
      simp only [RateLimiter.validFrom, Bool.and_eq_true, decide_eq_true_eq] at hv
      obtain ⟨⟨⟨h1, h2⟩, h3⟩, h4⟩ := hv
      have hb := ih _ t k h4 (le_trans (Nat.sub_le _ _) htok)
      rw [countAcquire_cons_acquire, countRefill_cons_acquire]
      simp only [RateLimiter.MAX_RPS] at hb ⊢
      omega

/-- C8 (amended): the token bucket does bound the request rate per refill
interval: over any valid run, the total number of released requests is at
most `MAX_RPS * (number of refill ticks + 1)` — i.e. at most `MAX_RPS` per
1-second refill interval on average (the bucket starts full and each tick
adds at most `MAX_RPS` tokens). The strict 1-second *sliding*-window bound
of the claim fails (see the counterexample): a window straddling a tick can
see up to twice the capacity. -/
theorem c8_refill_interval_bound (tr : List (Nat × RateLimiter.Ev))
    (hv : RateLimiter.validTrace tr = true) :
    RateLimiter.countAcquire tr ≤
      RateLimiter.MAX_RPS * (RateLimiter.countRefill tr + 1) := by
  have hb := validFrom_acquire_bound tr RateLimiter.MAX_RPS 0 1 hv (le_refl _)
  simp only [RateLimiter.MAX_RPS] at hb ⊢
  omega

/-- C8 (witness): the interval bound on the burst trace — 6 acquisitions,
one refill tick, 6 ≤ 3 * 2. -/
theorem c8_refill_interval_bound_witness :
    RateLimiter.countAcquire RateLimiter.burstTrace ≤
      RateLimiter.MAX_RPS * (RateLimiter.countRefill RateLimiter.burstTrace + 1) :=
  c8_refill_interval_bound RateLimiter.burstTrace (by decide)
